import Mathlib

/-!
Shallow embedding of the test-registry logic of `src/src/app/page.tsx`:
the data model (`TestCase`, `TestStatus`, `FilterOption`, `TestStats`),
the seeded initial state (`defaultTests`), and the five operations
(`handleAddTest`, `handleUpdateStatus`, `handleRemove`, `filteredTests`,
`stats`), followed by theorems about them.
-/

/-- Embeds `type TestStatus = "pending" | "pass" | "fail"`. -/
inductive TestStatus where
  | pending
  | pass
  | fail
deriving DecidableEq, Repr

/-- Embeds the `TestCase` record type: id, title, description, expected,
status, and an optional `lastRun`. -/
structure TestCase where
  id : String
  title : String
  description : String
  expected : String
  status : TestStatus
  lastRun : Option String := none
deriving DecidableEq, Repr

/-- Embeds `type FilterOption`: the literal `all` or one of the statuses. -/
inductive FilterOption where
  | all
  | only (s : TestStatus)
deriving DecidableEq, Repr

/-- Embeds `type TestStats`: a total plus one counter per status. -/
structure TestStats where
  total : Nat
  pending : Nat
  pass : Nat
  fail : Nat
deriving DecidableEq, Repr

/-- The seeded `defaultTests` array of the source, verbatim. -/
def defaultTests : List TestCase :=
  [ { id := "auth-flow"
      title := "Authentication Flow"
      description := "Validate that a new user can register, receive a confirmation email, and sign in successfully."
      expected := "User lands on dashboard with a welcome toast and access token stored."
      status := .pending }
  , { id := "payments"
      title := "Payment Capture"
      description := "Charge an existing customer for a saved card using the hosted checkout form."
      expected := "Charge completes with status `succeeded` in Stripe dashboard."
      status := .pass
      lastRun := some "2024-04-08 14:12" }
  , { id := "webhooks"
      title := "Webhook Retries"
      description := "Force a webhook to fail once and confirm the retry logic delivers the payload on the second attempt."
      expected := "Delivery log shows two attempts and final status `delivered`."
      status := .fail
      lastRun := some "2024-04-07 09:34" } ]

/-- The component state the registry operations act on: the `tests` list and
the active `filter` (`useState` hooks of `Home`). -/
structure AppState where
  tests : List TestCase
  filter : FilterOption
deriving DecidableEq, Repr

/-- The initial component state: `useState(defaultTests)` and `useState("all")`. -/
def initState : AppState :=
  { tests := defaultTests, filter := .all }

/-- JS `String.prototype.trim`: strip leading and trailing whitespace,
modelled on the character list of the string. -/
def jsTrim (s : String) : String :=
  ⟨((s.data.dropWhile Char.isWhitespace).reverse.dropWhile Char.isWhitespace).reverse⟩

/-- The record built by `handleAddTest` for a given `Date.now()` value `now`:
trimmed title, placeholder defaults for empty description / expected result,
status `pending`, no `lastRun`. -/
def newTestCase (now : Nat) (title description expected : String) : TestCase :=
  { id := toString now
    title := jsTrim title
    description := if jsTrim description = "" then "No description provided." else jsTrim description
    expected := if jsTrim expected = "" then "No expected result documented." else jsTrim expected
    status := .pending
    lastRun := none }

/-- Embeds `handleAddTest`: no-op when the trimmed title is empty, otherwise prepends
the new record and resets the filter to `all`. `now` stands for `Date.now()`. -/
def handleAddTest (s : AppState) (now : Nat) (title description expected : String) : AppState :=
  if jsTrim title = "" then s
  else { s with
           tests := newTestCase now title description expected :: s.tests
           filter := .all }

/-- Embeds the per-record function mapped by `handleUpdateStatus`: the matching id
gets the new status and a fresh `lastRun` string, others are untouched.
`now` stands for the formatted `new Date()` timestamp. -/
def updateOne (id : String) (status : TestStatus) (now : String) (t : TestCase) : TestCase :=
  if t.id = id then { t with status := status, lastRun := some now } else t

/-- Embeds `handleUpdateStatus`: map `updateOne` over the list. -/
def handleUpdateStatus (ts : List TestCase) (id : String) (status : TestStatus)
    (now : String) : List TestCase :=
  ts.map (updateOne id status now)

/-- Embeds `handleRemove`: keep the records whose id differs. -/
def handleRemove (ts : List TestCase) (id : String) : List TestCase :=
  ts.filter (fun t => t.id != id)

/-- Embeds `filteredTests`: the whole list under `all`, otherwise the records whose
status equals the filter. -/
def filteredTests (ts : List TestCase) (f : FilterOption) : List TestCase :=
  match f with
  | .all => ts
  | .only s => ts.filter (fun t => t.status == s)

/-- Embeds the fold step of the reduce inside `stats`: bump `total` and the
field of the status of the record. -/
def statsStep (acc : TestStats) (t : TestCase) : TestStats :=
  let acc1 := { acc with total := acc.total + 1 }
  match t.status with
  | .pending => { acc1 with pending := acc1.pending + 1 }
  | .pass => { acc1 with pass := acc1.pass + 1 }
  | .fail => { acc1 with fail := acc1.fail + 1 }

/-- Embeds `stats`: reduce over the list from all-zero counters. -/
def stats (ts : List TestCase) : TestStats :=
  ts.foldl statsStep { total := 0, pending := 0, pass := 0, fail := 0 }

/-- The ids currently in a registry list. -/
def ids (ts : List TestCase) : List String :=
  ts.map (fun t => t.id)

/-- Two sample records matching the scenario in the spec of one `pass` and one
`fail` record. -/
def samplePass : TestCase :=
  { id := "p1"
    title := "Checkout works"
    description := "Run the checkout flow end to end."
    expected := "Order confirmation page."
    status := .pass
    lastRun := some "2024-05-01 09:00" }

/-- Companion sample record with status `fail`. -/
def sampleFail : TestCase :=
  { id := "f1"
    title := "Search facets"
    description := "Apply two facets at once."
    expected := "Result list narrows twice."
    status := .fail
    lastRun := some "2024-05-01 09:05" }

/-- States reachable from the initial state by any sequence of the three
mutating handlers, with `Date.now()` and the formatted clock left arbitrary. -/
inductive Reachable : AppState → Prop where
  | init : Reachable initState
  | add (s : AppState) (now : Nat) (title description expected : String) :
      Reachable s → Reachable (handleAddTest s now title description expected)
  | update (s : AppState) (id : String) (st : TestStatus) (now : String) :
      Reachable s → Reachable { s with tests := handleUpdateStatus s.tests id st now }
  | remove (s : AppState) (id : String) :
      Reachable s → Reachable { s with tests := handleRemove s.tests id }

/-- Like `Reachable`, but every add happens at a `Date.now()` value whose
decimal string is not already an id of the registry (a non-colliding clock). -/
inductive ReachableFresh : AppState → Prop where
  | init : ReachableFresh initState
  | add (s : AppState) (now : Nat) (title description expected : String) :
      ReachableFresh s → toString now ∉ ids s.tests →
      ReachableFresh (handleAddTest s now title description expected)
  | update (s : AppState) (id : String) (st : TestStatus) (now : String) :
      ReachableFresh s → ReachableFresh { s with tests := handleUpdateStatus s.tests id st now }
  | remove (s : AppState) (id : String) :
      ReachableFresh s → ReachableFresh { s with tests := handleRemove s.tests id }

/-- Unfolding the fold of `stats` over an arbitrary accumulator. -/
theorem stats_foldl (ts : List TestCase) (acc : TestStats) :
    ts.foldl statsStep acc =
      { total := acc.total + ts.length
        pending := acc.pending + ts.countP (fun t => t.status == TestStatus.pending)
        pass := acc.pass + ts.countP (fun t => t.status == TestStatus.pass)
        fail := acc.fail + ts.countP (fun t => t.status == TestStatus.fail) } := by
  induction ts generalizing acc with
  | nil => simp
  | cons t ts ih =>
    rw [List.foldl_cons, ih]
    cases h : t.status <;>
      simp [statsStep, h, List.countP_cons, TestStats.mk.injEq] <;> omega

/-- The `total` field of `stats` is the length of the registry. -/
theorem stats_total (ts : List TestCase) : (stats ts).total = ts.length := by
  simp [stats, stats_foldl]

/-- Each record has exactly one status, so the three per-status counts
partition the registry. -/
theorem countP_status_partition (ts : List TestCase) :
    ts.countP (fun t => t.status == TestStatus.pending)
      + ts.countP (fun t => t.status == TestStatus.pass)
      + ts.countP (fun t => t.status == TestStatus.fail) = ts.length := by
  induction ts with
  | nil => simp
  | cons t ts ih =>
    cases h : t.status <;> simp [List.countP_cons, h] <;> omega

/-- Lemma: `updateOne` never touches the id. -/
theorem updateOne_id (id : String) (st : TestStatus) (now : String) (t : TestCase) :
    (updateOne id st now t).id = t.id := by
  unfold updateOne; split <;> rfl

/-- Lemma: `handleUpdateStatus` leaves the id sequence unchanged. -/
theorem ids_handleUpdateStatus (ts : List TestCase) (id : String) (st : TestStatus)
    (now : String) : ids (handleUpdateStatus ts id st now) = ids ts := by
  simp only [ids, handleUpdateStatus, List.map_map]
  exact List.map_congr_left fun t _ => updateOne_id id st now t

/-- With pairwise distinct ids, exactly one record matches a present id. -/
theorem countP_id_unique (ts : List TestCase) (id : String) (hn : (ids ts).Nodup)
    (t : TestCase) (ht : t ∈ ts) (hid : t.id = id) :
    ts.countP (fun x => x.id == id) = 1 := by
  induction ts with
  | nil => cases ht
  | cons a ts ih =>
    simp only [ids, List.map_cons, List.nodup_cons, List.mem_map] at hn
    obtain ⟨hna, hnts⟩ := hn
    rcases List.mem_cons.mp ht with rfl | hts
    · rw [List.countP_cons]
      have h0 : ts.countP (fun x => x.id == id) = 0 := by
        apply List.countP_eq_zero.mpr
        intro x hx hbeq
        exact hna ⟨x, hx, (beq_iff_eq.mp hbeq).trans hid.symm⟩
      simp [h0, hid]
    · rw [List.countP_cons]
      have h1 := ih hnts hts
      have ha : (a.id == id) = false := by
        apply beq_eq_false_iff_ne.mpr
        intro he
        exact hna ⟨t, hts, hid.trans he.symm⟩
      simp [h1, ha]

/-- Removing and keeping split the length of the registry. -/
theorem countP_id_split (ts : List TestCase) (id : String) :
    ts.countP (fun x => x.id != id) + ts.countP (fun x => x.id == id) = ts.length := by
  induction ts with
  | nil => simp
  | cons a ts ih =>
    by_cases h : a.id = id <;> simp [List.countP_cons, h] <;> omega
/-- C1: for every input whose title is non-empty after trimming, the add
operation increases the `total` of `stats` by exactly 1 and the newly created
record is the first element of the filtered view under the `all` filter. -/
theorem handleAddTest_total_and_front (s : AppState) (now : Nat)
    (title description expected : String) (h : jsTrim title ≠ "") :
    (stats (handleAddTest s now title description expected).tests).total
      = (stats s.tests).total + 1 ∧
    (filteredTests (handleAddTest s now title description expected).tests
        FilterOption.all).head?
      = some (newTestCase now title description expected) := by
  have hs : handleAddTest s now title description expected =
      { s with
          tests := newTestCase now title description expected :: s.tests
          filter := .all } := by
    simp [handleAddTest, h]
  rw [hs]
  exact ⟨by simp [stats_total], rfl⟩

/-- C1 witness: adding a record titled Login test to the seeded state. -/
theorem handleAddTest_total_and_front_witness :
    (stats (handleAddTest initState 42 "Login test" "" "").tests).total
      = (stats initState.tests).total + 1 ∧
    (filteredTests (handleAddTest initState 42 "Login test" "" "").tests
        FilterOption.all).head?
      = some (newTestCase 42 "Login test" "" "") :=
  handleAddTest_total_and_front initState 42 "Login test" "" "" (by decide)

/-- C2: updating a status keeps the length and the order of the registry, and
rewrites each position pointwise: the record whose id matches gets the new
status and the fresh timestamp, every other record is returned unchanged. -/
theorem handleUpdateStatus_frame (ts : List TestCase) (id : String)
    (st : TestStatus) (now : String) :
    (handleUpdateStatus ts id st now).length = ts.length ∧
    ∀ i : Nat, (handleUpdateStatus ts id st now)[i]? =
      (ts[i]?).map fun t =>
        if t.id = id then { t with status := st, lastRun := some now } else t := by
  constructor
  · simp [handleUpdateStatus]
  · intro i
    simp only [handleUpdateStatus, List.getElem?_map]
    cases ts[i]? with
    | none => rfl
    | some t => simp [updateOne]

/-- C3: the filtered view is a sublist of the registry (order preserved and
the registry untouched), returns the whole registry under `all`, and for a
status filter contains exactly the records with that status. -/
theorem filteredTests_spec (ts : List TestCase) (f : FilterOption) :
    (filteredTests ts f).Sublist ts ∧
    filteredTests ts FilterOption.all = ts ∧
    ∀ s, f = FilterOption.only s → ∀ t : TestCase,
      t ∈ filteredTests ts f ↔ t ∈ ts ∧ t.status = s := by
  refine ⟨?_, rfl, ?_⟩
  · cases f with
    | all => exact List.Sublist.refl ts
    | only s => exact List.filter_sublist ts
  · rintro s rfl t
    simp [filteredTests, List.mem_filter]

/-- C3 witness: filtering two records for `fail` keeps exactly the failing
one. -/
theorem filteredTests_spec_witness :
    sampleFail ∈ filteredTests [samplePass, sampleFail]
        (FilterOption.only TestStatus.fail) ↔
      sampleFail ∈ [samplePass, sampleFail] ∧ sampleFail.status = TestStatus.fail :=
  (filteredTests_spec [samplePass, sampleFail]
    (FilterOption.only TestStatus.fail)).2.2 TestStatus.fail rfl sampleFail

/-- C4: the stats counters satisfy pending + pass + fail = total, total is
the number of records, and each per-status field counts the records with that
status. -/
theorem stats_spec (ts : List TestCase) :
    (stats ts).pending + (stats ts).pass + (stats ts).fail = (stats ts).total ∧
    (stats ts).total = ts.length ∧
    (stats ts).pending = ts.countP (fun t => t.status == TestStatus.pending) ∧
    (stats ts).pass = ts.countP (fun t => t.status == TestStatus.pass) ∧
    (stats ts).fail = ts.countP (fun t => t.status == TestStatus.fail) := by
  refine ⟨?_, stats_total ts, ?_, ?_, ?_⟩ <;>
    simp [stats, stats_foldl, countP_status_partition]
/-- C5 counterexample: the id of a new record is the decimal string of
`Date.now()`, with no collision check, so two adds at the same millisecond
(here 5) yield a reachable state whose ids are not pairwise distinct. -/
theorem reachable_duplicate_ids :
    Reachable (handleAddTest (handleAddTest initState 5 "t1" "" "") 5 "t2" "" "") ∧
    ¬ (ids (handleAddTest (handleAddTest initState 5 "t1" "" "") 5 "t2" "" "").tests).Nodup :=
  ⟨Reachable.add _ 5 "t2" "" "" (Reachable.add _ 5 "t1" "" "" Reachable.init),
   by decide⟩

/-- C5 (amended): ids are pairwise distinct in every state reachable when each
add happens at a `Date.now()` value whose decimal string is not already an id
of the registry; under that freshness side condition each successful add
assigns an id different from every id already present, and updates and
removals preserve distinctness. -/
theorem reachableFresh_ids_nodup (s : AppState) (h : ReachableFresh s) :
    (ids s.tests).Nodup := by
  induction h with
  | init => decide
  | add s now title description expected hr hfresh ih =>
    by_cases hv : jsTrim title = ""
    · simpa [handleAddTest, hv] using ih
    · have hs : (handleAddTest s now title description expected).tests =
          newTestCase now title description expected :: s.tests := by
        simp [handleAddTest, hv]
      rw [hs]
      have hid : ids (newTestCase now title description expected :: s.tests) =
          toString now :: ids s.tests := rfl
      rw [hid]
      exact List.nodup_cons.mpr ⟨hfresh, ih⟩
  | update s id st now hr ih =>
    simpa [ids_handleUpdateStatus] using ih
  | remove s id hr ih =>
    have hsub : (ids (handleRemove s.tests id)).Sublist (ids s.tests) := by
      simp only [ids, handleRemove]
      exact (List.filter_sublist s.tests).map fun t => t.id
    exact ih.sublist hsub

/-- C5 witness: an add at millisecond 7 over the seeded registry keeps the
ids pairwise distinct. -/
theorem reachableFresh_ids_nodup_witness :
    (ids (handleAddTest initState 7 "Login test" "" "").tests).Nodup :=
  reachableFresh_ids_nodup _
    (ReachableFresh.add initState 7 "Login test" "" "" ReachableFresh.init (by decide))

/-- C6: a record built by the add operation starts as `pending` with no
`lastRun`; the add operation otherwise only prepends (existing records keep
their `lastRun`); the update operation sets `lastRun` to the fresh timestamp
exactly on the record whose id matches — for any new status, including
re-selecting the current one — and on no other record. -/
theorem lastRun_lifecycle :
    (∀ (now : Nat) (title description expected : String),
        (newTestCase now title description expected).status = TestStatus.pending ∧
        (newTestCase now title description expected).lastRun = none) ∧
    (∀ (s : AppState) (now : Nat) (title description expected : String),
        (handleAddTest s now title description expected).tests = s.tests ∨
        (handleAddTest s now title description expected).tests =
          newTestCase now title description expected :: s.tests) ∧
    (∀ (ts : List TestCase) (id : String) (st : TestStatus) (now : String) (i : Nat),
        ((handleUpdateStatus ts id st now)[i]?).map TestCase.lastRun =
          (ts[i]?).map fun t => if t.id = id then some now else t.lastRun) := by
  refine ⟨fun now title description expected => ⟨rfl, rfl⟩,
          fun s now title description expected => ?_,
          fun ts id st now i => ?_⟩
  · unfold handleAddTest
    split
    · exact Or.inl rfl
    · exact Or.inr rfl
  · simp only [handleUpdateStatus, List.getElem?_map]
    cases ts[i]? with
    | none => rfl
    | some t =>
      by_cases hc : t.id = id <;> simp [updateOne, hc]

/-- C7: when the trimmed title is empty the add operation is a strict no-op:
the whole component state, registry and filter included, is unchanged. -/
theorem handleAddTest_blank_title_noop (s : AppState) (now : Nat)
    (title description expected : String) (h : jsTrim title = "") :
    handleAddTest s now title description expected = s := by
  simp [handleAddTest, h]

/-- C7 witness: an all-whitespace title over the seeded state. -/
theorem handleAddTest_blank_title_noop_witness :
    handleAddTest initState 9 "   " "notes" "result" = initState :=
  handleAddTest_blank_title_noop initState 9 "   " "notes" "result" (by decide)
/-- C8: removal is a no-op when no record carries the id; otherwise it keeps
the remaining records unchanged and in order (the result is a sublist that
retains every record with a different id), and — over a registry with pairwise
distinct ids, the standing invariant of the spec — deletes exactly one record, so
the `total` of `stats` drops by exactly 1. -/
theorem handleRemove_spec (ts : List TestCase) (id : String) :
    ((∀ t ∈ ts, t.id ≠ id) → handleRemove ts id = ts) ∧
    (handleRemove ts id).Sublist ts ∧
    (∀ t ∈ ts, t.id ≠ id → t ∈ handleRemove ts id) ∧
    ((ids ts).Nodup → ∀ t ∈ ts, t.id = id →
      (stats (handleRemove ts id)).total + 1 = (stats ts).total) := by
  refine ⟨?_, List.filter_sublist ts, ?_, ?_⟩
  · intro h
    apply List.filter_eq_self.mpr
    intro a ha
    exact bne_iff_ne.mpr (h a ha)
  · intro t ht hne
    exact List.mem_filter.mpr ⟨ht, bne_iff_ne.mpr hne⟩
  · intro hn t ht hid
    rw [stats_total, stats_total]
    have hlen : (handleRemove ts id).length = ts.countP (fun x => x.id != id) := by
      rw [handleRemove]
      exact (List.countP_eq_length_filter _ _).symm
    rw [hlen]
    have h1 := countP_id_unique ts id hn t ht hid
    have h2 := countP_id_split ts id
    omega

/-- C8 witness: removing the failing sample record from a two-record registry
drops the total from 2 to 1. -/
theorem handleRemove_spec_witness :
    (stats (handleRemove [samplePass, sampleFail] "f1")).total + 1 =
      (stats [samplePass, sampleFail]).total :=
  (handleRemove_spec [samplePass, sampleFail] "f1").2.2.2 (by decide)
    sampleFail (by decide) rfl

/-- C9: updating with an id that matches no record returns the registry
exactly as it was, with no error signalled (the operation is total). -/
theorem handleUpdateStatus_missing_noop (ts : List TestCase) (id : String)
    (st : TestStatus) (now : String) (h : ∀ t ∈ ts, t.id ≠ id) :
    handleUpdateStatus ts id st now = ts := by
  induction ts with
  | nil => rfl
  | cons a ts ih =>
    show updateOne id st now a :: ts.map (updateOne id st now) = a :: ts
    have ha : updateOne id st now a = a := by
      simp [updateOne, h a (List.mem_cons_self a ts)]
    rw [ha]
    exact congrArg (List.cons a)
      (ih fun t ht => h t (List.mem_cons_of_mem a ht))

/-- C9 witness: an unknown id over the seeded registry changes nothing. -/
theorem handleUpdateStatus_missing_noop_witness :
    handleUpdateStatus defaultTests "missing" TestStatus.pass "2024-05-01 10:00"
      = defaultTests :=
  handleUpdateStatus_missing_noop defaultTests "missing" TestStatus.pass
    "2024-05-01 10:00" (by decide)

/-- C10: every successful add also resets the active filter to `all`, and the
initial registry is pre-seeded with three records — one `pending` with no
`lastRun`, one `pass` and one `fail` that carry a `lastRun` although no update
operation has occurred. -/
theorem addTest_filter_reset_and_seeded_init :
    (∀ (s : AppState) (now : Nat) (title description expected : String),
        jsTrim title ≠ "" →
        (handleAddTest s now title description expected).filter = FilterOption.all) ∧
    initState.tests = defaultTests ∧
    defaultTests.map (fun t => (t.status, t.lastRun)) =
      [(TestStatus.pending, none),
       (TestStatus.pass, some "2024-04-08 14:12"),
       (TestStatus.fail, some "2024-04-07 09:34")] := by
  refine ⟨fun s now title description expected h => ?_, rfl, rfl⟩
  simp [handleAddTest, h]

/-- C10 witness: a successful add over the seeded state under an arbitrary
prior filter resets the filter to `all`. -/
theorem addTest_filter_reset_and_seeded_init_witness :
    (handleAddTest { tests := defaultTests, filter := FilterOption.only TestStatus.fail }
        3 "New check" "" "").filter = FilterOption.all :=
  addTest_filter_reset_and_seeded_init.1
    { tests := defaultTests, filter := FilterOption.only TestStatus.fail }
    3 "New check" "" "" (by decide)
